import Mathlib

/-!
# EventSaga request-validation layer: a shallow embedding

This development embeds the validators, the auth gate and the resource
handlers of the EventSaga Flask API (app/utils/validators.py,
app/middleware/auth.py, app/routes/{rsvps,groups,chat}.py) as executable
Lean definitions, and proves the behavioural properties stated in the
specification.  Python strings are modelled as Lean `String`s (lists of
characters); the regex character classes `[a-zA-Z]` and `\d` are modelled
by their ASCII readings `Char.isAlpha` / `Char.isDigit`; the external
Supabase store is modelled by an explicit in-memory database record, and
the identity collaborator of the auth middleware by an environment of
response functions.
-/

namespace EventSaga

/-! ## Validators (app/utils/validators.py) -/

/-- `validate_password` (validators.py:27-54): rejects falsy input, then
length < 8, then absence of a `[a-zA-Z]` character, then absence of a
`\d` character; accepts otherwise.  Returns `(is_valid, error_message)`. -/
def validate_password (password : String) : Bool × String :=
  if password = "" then (false, "Password is required")
  else if password.length < 8 then (false, "Password must be at least 8 characters long")
  else if !(password.data.any Char.isAlpha) then (false, "Password must contain at least one letter")
  else if !(password.data.any Char.isDigit) then (false, "Password must contain at least one number")
  else (true, "")

/-- The character class `[0-9a-f]` under `re.IGNORECASE`. -/
def isHexChar (c : Char) : Bool :=
  c.isDigit || ('a' ≤ c && c ≤ 'f') || ('A' ≤ c && c ≤ 'F')

/-- Consume exactly `n` hex characters from the front of the input,
returning the remainder (the `[0-9a-f]{n}` regex atom). -/
def matchHexRun : Nat → List Char → Option (List Char)
  | 0, cs => some cs
  | _ + 1, [] => none
  | n + 1, c :: cs => if isHexChar c then matchHexRun n cs else none

/-- Consume a literal `'-'` from the front of the input. -/
def expectDash : List Char → Option (List Char)
  | [] => none
  | c :: rest => if c = '-' then some rest else none

/-- Consume `n` hex characters followed by a literal `'-'`. -/
def matchDashGroup (n : Nat) (cs : List Char) : Option (List Char) :=
  (matchHexRun n cs).bind expectDash

/-- The body of the UUID pattern
`[0-9a-f]{8}-[0-9a-f]{4}-[0-9a-f]{4}-[0-9a-f]{4}-[0-9a-f]{12}`,
as a left-to-right matcher returning the unconsumed suffix. -/
def matchUuidBody (cs : List Char) : Option (List Char) :=
  (matchDashGroup 8 cs).bind fun r1 =>
    (matchDashGroup 4 r1).bind fun r2 =>
      (matchDashGroup 4 r2).bind fun r3 =>
        (matchDashGroup 4 r3).bind fun r4 =>
          matchHexRun 12 r4

/-- `uuid_pattern.match(s)` for the anchored pattern `^body$` without
`re.MULTILINE`: Python's `$` matches at the end of the string *or just
before a newline at the end of the string*, so the pattern also accepts
the canonical form followed by one trailing `'\n'`. -/
def uuidPatternMatch (s : String) : Bool :=
  match matchUuidBody s.data with
  | some [] => true
  | some [c] => c = '\n'
  | _ => false

/-- `validate_uuid` (validators.py:97-118): rejects falsy input, then
applies the anchored case-insensitive UUID regex. -/
def validate_uuid (s : String) : Bool × String :=
  if s = "" then (false, "UUID is required")
  else if !uuidPatternMatch s then (false, "Invalid UUID format")
  else (true, "")

/-! Specification-side characterisation of the canonical UUID form, used
to judge `validate_uuid` against the spec's words ("canonical 8-4-4-4-12
hyphenated hex pattern, case-insensitive"). -/

/-- A character list is in canonical UUID form: five all-hex groups of
sizes 8, 4, 4, 4, 12 joined by single hyphens. -/
def IsCanonicalUuidList (cs : List Char) : Prop :=
  ∃ g1 g2 g3 g4 g5 : List Char,
    cs = g1 ++ '-' :: (g2 ++ '-' :: (g3 ++ '-' :: (g4 ++ '-' :: g5))) ∧
    g1.length = 8 ∧ g2.length = 4 ∧ g3.length = 4 ∧ g4.length = 4 ∧ g5.length = 12 ∧
    (∀ c ∈ g1, isHexChar c = true) ∧ (∀ c ∈ g2, isHexChar c = true) ∧
    (∀ c ∈ g3, isHexChar c = true) ∧ (∀ c ∈ g4, isHexChar c = true) ∧
    (∀ c ∈ g5, isHexChar c = true)

/-- A string is a canonical 36-character hyphenated-hex UUID. -/
def IsCanonicalUuid (s : String) : Prop := IsCanonicalUuidList s.data

/-! ## A model of Python values, for validators that receive raw payload
fields (`Dict[str, Any]`). -/

/-- A Python runtime value as it can appear in a JSON payload map. -/
inductive PyVal where
  | vNone
  | vStr (s : String)
  | vInt (n : Int)
  | vBool (b : Bool)
  | vList (xs : List PyVal)

/-- Exceptions the modelled Python fragments can raise. -/
inductive PyErr where
  | typeError
  | valueError
  | attributeError
deriving DecidableEq

/-- Python truthiness of a value. -/
def pyTruthy : PyVal → Bool
  | .vNone => false
  | .vStr s => s ≠ ""
  | .vInt n => n ≠ 0
  | .vBool b => b
  | .vList xs => !xs.isEmpty

/-- An apostrophe, as used by Python `repr` of a string. -/
def pyQuote : String := String.singleton (Char.ofNat 39)

mutual

/-- Python `repr` of a value (string elements of lists are quoted). -/
def pyRepr : PyVal → String
  | .vNone => "None"
  | .vStr s => pyQuote ++ s ++ pyQuote
  | .vInt n => toString n
  | .vBool b => if b then "True" else "False"
  | .vList xs => "[" ++ String.intercalate ", " (pyReprList xs) ++ "]"

/-- `repr` of each element of a list of values. -/
def pyReprList : List PyVal → List String
  | [] => []
  | x :: xs => pyRepr x :: pyReprList xs

end

/-- Python `str()` of a value. -/
def pyStr : PyVal → String
  | .vStr s => s
  | v => pyRepr v

/-- Python `str.strip()` (whitespace from both ends), defined by
structural recursion on the character list. -/
def pyStrip (s : String) : String :=
  String.mk (((s.data.dropWhile Char.isWhitespace).reverse.dropWhile Char.isWhitespace).reverse)

/-- Python `len()`: defined on strings and lists, raises `TypeError`
on every other modelled value. -/
def pyLen : PyVal → Except PyErr Nat
  | .vStr s => .ok s.length
  | .vList xs => .ok xs.length
  | _ => .error .typeError

/-- Digit run to number, for `int()` of a decimal string. -/
def digitsToNat (cs : List Char) : Nat :=
  cs.foldl (fun a c => a * 10 + (c.toNat - '0'.toNat)) 0

/-- Python `int()` applied to a decimal string: optional surrounding
whitespace, optional sign, at least one digit. -/
def pyParseInt (s : String) : Option Int :=
  match (pyStrip s).data with
  | [] => none
  | '+' :: rest =>
    if rest ≠ [] ∧ rest.all Char.isDigit then some (digitsToNat rest) else none
  | '-' :: rest =>
    if rest ≠ [] ∧ rest.all Char.isDigit then some (-(digitsToNat rest : Int)) else none
  | cs => if cs.all Char.isDigit then some (digitsToNat cs) else none

/-- Python `int()` on a value: ints and bools convert, strings parse or
raise `ValueError`, everything else raises `TypeError`. -/
def pyInt : PyVal → Except PyErr Int
  | .vInt n => .ok n
  | .vBool b => .ok (if b then 1 else 0)
  | .vStr s =>
    match pyParseInt s with
    | some n => .ok n
    | none => .error .valueError
  | .vNone => .error .typeError
  | .vList _ => .error .typeError

/-- Python `str.isdigit()` (ASCII reading): non-empty and all digits. -/
def pyIsdigit (cs : List Char) : Bool := cs ≠ [] && cs.all Char.isDigit

/-- A JSON payload map (`Dict[str, Any]`), in insertion order. -/
def PyDict := List (String × PyVal)

/-- `field in data` / `data[field]` lookup. -/
def dictGet (d : PyDict) (k : String) : Option PyVal :=
  (d.find? (fun p => p.1 == k)).map (·.2)

/-- `errors[field] = msg`: replace in place if the key exists, else
append (Python dict update semantics). -/
def setKey (d : List (String × String)) (k v : String) : List (String × String) :=
  if d.any (fun p => p.1 == k) then d.map (fun p => if p.1 == k then (k, v) else p)
  else d ++ [(k, v)]

/-- Python `str.title()`: upper-case every letter that follows a
non-letter, lower-case the rest. -/
def pyTitle (s : String) : String :=
  String.mk ((s.data.foldl
    (fun (acc : List Char × Bool) c =>
      ((if acc.2 then c.toLower else c.toUpper) :: acc.1, c.isAlpha))
    ([], false)).1.reverse)

/-- `f"{field.replace('_', ' ').title()} is required"`. -/
def requiredMsg (field : String) : String :=
  pyTitle (String.map (fun c => if c == '_' then ' ' else c) field) ++ " is required"

/-- `validate_required_fields` (validators.py:146-163): flags each field
that is absent, `None`, or whose `str()` strips to the empty string. -/
def validate_required_fields (data : PyDict) (required : List String) :
    List (String × String) :=
  required.foldl
    (fun errors field =>
      match dictGet data field with
      | none => setKey errors field (requiredMsg field)
      | some .vNone => setKey errors field (requiredMsg field)
      | some v =>
        if pyStrip (pyStr v) == "" then setKey errors field (requiredMsg field) else errors)
    []

/-- `validate_phone` (validators.py:120-144): falsy input is rejected;
`re.sub` strips separator characters but raises `TypeError` on a
non-string argument; then digits-only and length 10-15 are checked. -/
def validate_phone (phone : PyVal) : Except PyErr (Bool × String) :=
  if !pyTruthy phone then .ok (false, "Phone number is required")
  else
    match phone with
    | .vStr s =>
      let cleaned := s.data.filter
        (fun c => !(c.isWhitespace || c == '-' || c == '(' || c == ')' || c == '+'))
      if !pyIsdigit cleaned then .ok (false, "Phone number must contain only digits")
      else if cleaned.length < 10 || cleaned.length > 15 then
        .ok (false, "Phone number must be between 10 and 15 digits")
      else .ok (true, "")
    | _ => .error .typeError

/-- One range check of `validate_event_data`: when `field` is present and
truthy, apply `len()` (which can raise `TypeError`) and record the
too-short / too-long message. -/
def checkLenField (data : PyDict) (errors : List (String × String)) (field : String)
    (lo hi : Nat) (loMsg hiMsg : String) : Except PyErr (List (String × String)) :=
  match dictGet data field with
  | some v =>
    if pyTruthy v then do
      let n ← pyLen v
      if n < lo then pure (setKey errors field loMsg)
      else if n > hi then pure (setKey errors field hiMsg)
      else pure errors
    else pure errors
  | none => pure errors

/-- `validate_event_data` (validators.py:165-219): required-fields check
(with an `isinstance(..., str)` guard before `.strip()`), then length
ranges for title, description and location via bare `len()` calls, then
the capacity range with `int()` wrapped in
`except (ValueError, TypeError)`. -/
def validate_event_data (data : PyDict) :
    Except PyErr (Bool × List (String × String)) := do
  let requiredFields := ["title", "description", "datetime", "location"]
  let errors : List (String × String) := requiredFields.foldl
    (fun errors field =>
      match dictGet data field with
      | none => setKey errors field (requiredMsg field)
      | some .vNone => setKey errors field (requiredMsg field)
      | some (.vStr s) =>
        if pyStrip s == "" then setKey errors field (requiredMsg field) else errors
      | some _ => errors)
    []
  let errors ← checkLenField data errors "title" 3 200
    "Title must be at least 3 characters long" "Title must not exceed 200 characters"
  let errors ← checkLenField data errors "description" 10 5000
    "Description must be at least 10 characters long" "Description must not exceed 5000 characters"
  let errors ← checkLenField data errors "location" 3 500
    "Location must be at least 3 characters long" "Location must not exceed 500 characters"
  let errors :=
    match dictGet data "capacity" with
    | none => errors
    | some .vNone => errors
    | some v =>
      match pyInt v with
      | .ok c =>
        if c < 1 then setKey errors "capacity" "Capacity must be at least 1"
        else if c > 1000000 then setKey errors "capacity" "Capacity must not exceed 1,000,000"
        else errors
      | .error _ => setKey errors "capacity" "Capacity must be a valid number"
  return (errors.length == 0, errors)

/-! ## The external store, modelled as an in-memory database
(app/routes/rsvps.py, groups.py, chat.py) -/

/-- A row of the `events` table (the columns the handlers branch on). -/
structure EventRec where
  id : String
  status : String
  capacity : Option Int
deriving DecidableEq

/-- A row of the `rsvps` table. -/
structure RsvpRec where
  eventId : String
  userId : String
deriving DecidableEq

/-- A row of the `groups` table. -/
structure GroupRec where
  id : String
  isPublic : Bool
  name : String
  description : String
  creatorId : String
deriving DecidableEq

/-- A row of the `group_members` table. -/
structure MemberRec where
  groupId : String
  userId : String
  role : String
deriving DecidableEq

/-- A row of the `messages` table. -/
structure MessageRec where
  id : String
  groupId : String
  userId : String
  content : String
  createdAt : Nat
  isDeleted : Bool
deriving DecidableEq

/-- The database held by the external store. -/
structure Db where
  events : List EventRec
  rsvps : List RsvpRec
  groups : List GroupRec
  members : List MemberRec
  messages : List MessageRec
deriving DecidableEq

/-- An HTTP response: status code and the message of the envelope
(`message` on success, `error` on failure). -/
structure HResp where
  status : Nat
  body : String
deriving DecidableEq

/-- `events.select('*').eq('id', event_id)` followed by `data[0]`. -/
def findEvent (db : Db) (eid : String) : Option EventRec :=
  (db.events.filter (fun e => e.id == eid)).head?

/-- `rsvps.select('id').eq('event_id', eid).eq('user_id', uid)`. -/
def rsvpRows (db : Db) (eid uid : String) : List RsvpRec :=
  db.rsvps.filter (fun r => r.eventId == eid && r.userId == uid)

/-- `rsvps.select('id', count='exact').eq('event_id', eid)`. -/
def rsvpCount (db : Db) (eid : String) : Nat :=
  (db.rsvps.filter (fun r => r.eventId == eid)).length

/-- `create_rsvp` (rsvps.py:13-95): UUID check, event existence (404),
active status (400), duplicate (event,user) RSVP (400), capacity when
set and truthy (400), then insert and 201. -/
def create_rsvp (db : Db) (uid eid : String) : HResp × Db :=
  if !(validate_uuid eid).1 then (⟨400, (validate_uuid eid).2⟩, db)
  else
    match findEvent db eid with
    | none => (⟨404, "Event not found"⟩, db)
    | some event =>
      if event.status ≠ "active" then (⟨400, "Cannot RSVP to inactive event"⟩, db)
      else if !(rsvpRows db eid uid).isEmpty then
        (⟨400, "You have already RSVP\x27d to this event"⟩, db)
      else
        let inserted : HResp × Db :=
          (⟨201, "RSVP successful"⟩, {db with rsvps := db.rsvps ++ [⟨eid, uid⟩]})
        match event.capacity with
        | some cap =>
          if cap ≠ 0 then
            if (rsvpCount db eid : Int) ≥ cap then (⟨400, "Event is at full capacity"⟩, db)
            else inserted
          else inserted
        | none => inserted

/-- `group_members.select(..).eq('group_id', gid).eq('user_id', uid)`. -/
def memberRows (db : Db) (gid uid : String) : List MemberRec :=
  db.members.filter (fun m => m.groupId == gid && m.userId == uid)

/-- The rows of `group_members` holding the admin role in a group. -/
def adminRows (ms : List MemberRec) (gid : String) : List MemberRec :=
  ms.filter (fun m => m.groupId == gid && m.role == "admin")

/-- `group_members.select('id', count='exact').eq('group_id', gid).eq('role', 'admin')`. -/
def adminCount (db : Db) (gid : String) : Nat :=
  (adminRows db.members gid).length

/-- The unique constraint of `group_members`: no two rows share the
(group, account) pair. -/
def MembersUnique (ms : List MemberRec) : Prop :=
  ms.Pairwise (fun a b => ¬(a.groupId = b.groupId ∧ a.userId = b.userId))

/-- `leave_group` (groups.py:299-346): UUID check, membership lookup
(404 when absent), sole-admin guard (400), then deletion of the
requester's membership rows and 200. -/
def leave_group (db : Db) (uid gid : String) : HResp × Db :=
  if !(validate_uuid gid).1 then (⟨400, (validate_uuid gid).2⟩, db)
  else
    match (memberRows db gid uid).head? with
    | none => (⟨404, "You are not a member of this group"⟩, db)
    | some m =>
      if m.role == "admin" && adminCount db gid == 1 then
        (⟨400, "Cannot leave group: you are the only admin. Please assign another admin first or delete the group."⟩, db)
      else
        (⟨200, "Successfully left group"⟩,
          {db with members := db.members.filter (fun r => !(r.groupId == gid && r.userId == uid))})

/-- A well-formed UUID used for concrete instantiations. -/
def uuidW : String := "12345678-1234-1234-1234-123456789abc"

/-- A second well-formed UUID used for concrete instantiations. -/
def uuidW2 : String := "aaaaaaaa-bbbb-cccc-dddd-eeeeffff0000"

/-- A concrete store state: one active event with capacity 2, no RSVPs. -/
def rsvpDbW : Db :=
  { events := [⟨uuidW, "active", some 2⟩], rsvps := [], groups := [], members := [],
    messages := [] }

/-- A concrete store state: one group with an admin and a plain member. -/
def leaveDbW : Db :=
  { events := [], rsvps := [], groups := [⟨uuidW2, true, "g", "a group", "u2"⟩],
    members := [⟨uuidW2, "u2", "admin"⟩, ⟨uuidW2, "u1", "member"⟩], messages := [] }

/-- Ordering used by `order('created_at', desc=True)`: newer first. -/
def msgNewerFirst (a b : MessageRec) : Prop := b.createdAt ≤ a.createdAt

instance : DecidableRel msgNewerFirst := fun a b => Nat.decLe b.createdAt a.createdAt

instance : IsTotal MessageRec msgNewerFirst := ⟨fun a b => Nat.le_total b.createdAt a.createdAt⟩

instance : IsTrans MessageRec msgNewerFirst :=
  ⟨fun _ _ _ hab hbc => Nat.le_trans hbc hab⟩

/-- `request.args.get('limit', 50, type=int)` followed by the two clamp
statements of `get_messages` (chat.py:49-56): absent/unparsable → 50,
`< 1` → 50, `> 100` → 100. -/
def clampLimit (arg : Option Int) : Int :=
  let l := arg.getD 50
  let l := if l < 1 then 50 else l
  if l > 100 then 100 else l

/-- Outcome of the message-listing handler. -/
inductive MsgsResult where
  | err (resp : HResp)
  | ok (msgs : List MessageRec) (hasMore : Bool)
deriving DecidableEq

/-- The optional `before` cursor of `get_messages` (chat.py:64-71): if a
valid-UUID `before` id names an existing message, keep only strictly
older messages; otherwise leave the query unchanged. -/
def applyBeforeCursor (db : Db) (beforeId : Option String) (base : List MessageRec) :
    List MessageRec :=
  match beforeId with
  | none => base
  | some bid =>
    if (validate_uuid bid).1 then
      match (db.messages.filter (fun m => m.id == bid)).head? with
      | some beforeMsg => base.filter (fun m => m.createdAt < beforeMsg.createdAt)
      | none => base
    else base

/-- `get_messages` (chat.py:13-101): UUID check, membership check (403),
limit clamping, `is_deleted = False` filter scoped to the group, the
optional `before` cursor, newest-first ordering with `limit`, and a
final reverse so the oldest message is first. -/
def get_messages (db : Db) (uid gid : String) (limitArg : Option Int)
    (beforeId : Option String) : MsgsResult :=
  if !(validate_uuid gid).1 then .err ⟨400, (validate_uuid gid).2⟩
  else if (memberRows db gid uid).isEmpty then
    .err ⟨403, "You must be a member of this group to view messages"⟩
  else
    let limit := clampLimit limitArg
    let base := applyBeforeCursor db beforeId
      (db.messages.filter (fun m => m.groupId == gid && m.isDeleted == false))
    let page := (List.insertionSort msgNewerFirst base).take limit.toNat
    .ok page.reverse ((page.reverse.length : Int) == limit)

/-- `messages.select('*').eq('id', mid).eq('group_id', gid)` then `data[0]`. -/
def findMessage (db : Db) (gid mid : String) : Option MessageRec :=
  (db.messages.filter (fun m => m.id == mid && m.groupId == gid)).head?

/-- `delete_message` (chat.py:195-250): UUID checks, message lookup
(404), sender-or-group-admin authorization (403), then the soft delete
`update({'is_deleted': True}).eq('id', message_id)` and 200. -/
def delete_message (db : Db) (uid gid mid : String) : HResp × Db :=
  if !(validate_uuid gid).1 then (⟨400, (validate_uuid gid).2⟩, db)
  else if !(validate_uuid mid).1 then (⟨400, (validate_uuid mid).2⟩, db)
  else
    match findMessage db gid mid with
    | none => (⟨404, "Message not found"⟩, db)
    | some message =>
      let isSender := message.userId == uid
      let isAdmin :=
        match memberRows db gid uid with
        | [] => false
        | r :: _ => r.role == "admin"
      if !isSender && !isAdmin then
        (⟨403, "You can only delete your own messages or if you are a group admin"⟩, db)
      else
        (⟨200, "Message deleted successfully"⟩,
          {db with messages :=
            db.messages.map (fun m => if m.id == mid then {m with isDeleted := true} else m)})

/-- The requester may delete the message: they sent it, or they hold an
admin-role membership row in the message's group. -/
def MayDelete (db : Db) (uid gid : String) (message : MessageRec) : Prop :=
  message.userId = uid ∨
    ∃ r ∈ db.members, r.groupId = gid ∧ r.userId = uid ∧ r.role = "admin"

/-- A concrete store state: a group with an admin and a member, and one
message sent by the member. -/
def chatDbW : Db :=
  { events := [], rsvps := [], groups := [⟨uuidW2, true, "g", "a group", "u2"⟩],
    members := [⟨uuidW2, "u1", "admin"⟩, ⟨uuidW2, "u2", "member"⟩],
    messages := [⟨uuidW, uuidW2, "u2", "hello", 5, false⟩] }

/-- `groups.select('*').eq('id', group_id)` then `data[0]`. -/
def findGroup (db : Db) (gid : String) : Option GroupRec :=
  (db.groups.filter (fun grp => grp.id == gid)).head?

/-- Outcome of the single-group read handler. -/
inductive GetGroupResult where
  | err (resp : HResp)
  | ok (g : GroupRec)
deriving DecidableEq

/-- `get_group` (groups.py:79-142): UUID check, group lookup (404
"Group not found"), and for a non-public group the caller must have an
identity and a membership row — otherwise the same 404 "Group not
found" is returned; on success the group row is served. -/
def get_group (db : Db) (user : Option String) (gid : String) : GetGroupResult :=
  if !(validate_uuid gid).1 then .err ⟨400, (validate_uuid gid).2⟩
  else
    match findGroup db gid with
    | none => .err ⟨404, "Group not found"⟩
    | some grp =>
      if !grp.isPublic then
        match user with
        | none => .err ⟨404, "Group not found"⟩
        | some uid =>
          if (memberRows db gid uid).isEmpty then .err ⟨404, "Group not found"⟩
          else .ok grp
      else .ok grp

/-- A concrete store state: one private group with a single admin. -/
def privDbW : Db :=
  { events := [], rsvps := [], groups := [⟨uuidW2, false, "secret", "hidden group", "u2"⟩],
    members := [⟨uuidW2, "u2", "admin"⟩], messages := [] }

/-- Modelled from the spec: `validate_group_data` is imported by the
group routes from the validators module and applied by `create_group`,
but its definition is absent from the sources; the spec describes it as
the "analogous composite check for name/description" — the
required-fields-plus-range composite of the event-payload validator,
with the name range taken from the spec's name bounds [2,100] and the
description range from the event description bounds [10,5000]. -/
def validate_group_data (data : PyDict) :
    Except PyErr (Bool × List (String × String)) := do
  let requiredFields := ["name", "description"]
  let errors : List (String × String) := requiredFields.foldl
    (fun errors field =>
      match dictGet data field with
      | none => setKey errors field (requiredMsg field)
      | some .vNone => setKey errors field (requiredMsg field)
      | some (.vStr s) =>
        if pyStrip s == "" then setKey errors field (requiredMsg field) else errors
      | some _ => errors)
    []
  let errors ← checkLenField data errors "name" 2 100
    "Name must be at least 2 characters long" "Name must not exceed 100 characters"
  let errors ← checkLenField data errors "description" 10 5000
    "Description must be at least 10 characters long" "Description must not exceed 5000 characters"
  return (errors.length == 0, errors)

/-- Python `value.strip()`: strings strip, every other value raises
`AttributeError`. -/
def pyStripVal : PyVal → Except PyErr String
  | .vStr s => .ok (pyStrip s)
  | _ => .error .attributeError

/-- `data.get('is_public', True)`, coerced to the boolean column. -/
def isPublicOf (data : PyDict) : Bool :=
  match dictGet data "is_public" with
  | none => true
  | some v => pyTruthy v

/-- `create_group` (groups.py:144-221): missing/falsy body → 400;
`validate_required_fields` on name/description → 400 with the field
map; `validate_group_data` → 400 with the field map; then the group row
is inserted (id generated by the store) and 201 returned.  Exceptions
reach the handler's `except` and give 500 with the store unchanged. -/
def create_group (db : Db) (uid newId : String) (body : Option PyDict) : HResp × Db :=
  match body with
  | none => (⟨400, "Request body is required"⟩, db)
  | some data =>
    if data.isEmpty then (⟨400, "Request body is required"⟩, db)
    else
      let fieldErrors := validate_required_fields data ["name", "description"]
      if !fieldErrors.isEmpty then (⟨400, "Validation failed"⟩, db)
      else
        match validate_group_data data with
        | .error _ => (⟨500, "Failed to create group"⟩, db)
        | .ok (isValid, _) =>
          if !isValid then (⟨400, "Validation failed"⟩, db)
          else
            match dictGet data "name", dictGet data "description" with
            | some nv, some dv =>
              match pyStripVal nv, pyStripVal dv with
              | .ok name, .ok desc =>
                (⟨201, "Group created successfully"⟩,
                  {db with groups := db.groups ++ [⟨newId, isPublicOf data, name, desc, uid⟩]})
              | _, _ => (⟨500, "Failed to create group"⟩, db)
            | _, _ => (⟨500, "Failed to create group"⟩, db)

/-- A valid group-creation payload. -/
def groupBodyW : PyDict :=
  [("name", .vStr "Tech Enthusiasts"), ("description", .vStr "A group for tech lovers")]

/-! ## The auth gate (app/middleware/auth.py) -/

/-- Python `str.split()` with no separator: split on runs of whitespace,
dropping empty pieces. -/
def pySplitWsAux : List Char → List Char → List String
  | [], acc => if acc.isEmpty then [] else [String.mk acc.reverse]
  | c :: cs, acc =>
    if c.isWhitespace then
      if acc.isEmpty then pySplitWsAux cs []
      else String.mk acc.reverse :: pySplitWsAux cs []
    else pySplitWsAux cs (c :: acc)

/-- `auth_header.split()`. -/
def pySplitWs (s : String) : List String := pySplitWsAux s.data []

/-- Python `str.lower()` (ASCII reading), by mapping over characters. -/
def pyLower (s : String) : String := String.mk (s.data.map Char.toLower)

/-- Python `sub in hay` on character lists. -/
def containsSub (sub : List Char) : List Char → Bool
  | [] => sub.isEmpty
  | c :: rest => sub.isPrefixOf (c :: rest) || containsSub sub rest

/-- The external identity collaborator as seen by the middleware:
`supabase.auth.get_user` may raise, return no user, or return a user;
the profile lookup may raise, find no row, or return the profile. -/
structure AuthEnv (User Profile : Type) where
  getUser : String → Except String (Option User)
  getProfile : User → Except String (Option Profile)

/-- Outcome of the decorator: an error response, or the wrapped handler
runs with the resolved profile attached to the request context. -/
inductive AuthOutcome (Profile : Type) where
  | resp (r : HResp)
  | proceed (p : Profile)
deriving DecidableEq

/-- The `except` branch of `require_auth` (auth.py:59-64): a 401 whose
message depends on the exception text. -/
def authExceptResp (e : String) : HResp :=
  if containsSub "invalid jwt".data (pyLower e).data ||
      containsSub "expired".data (pyLower e).data then
    ⟨401, "Invalid or expired token"⟩
  else ⟨401, "Authentication failed: " ++ e⟩

/-- `require_auth` (auth.py:9-66): missing/falsy header → 401; header
that does not split into two whitespace-separated parts with first word
case-insensitively `bearer` → 401; token resolution failure or
exception → 401; resolved user without profile row → 404; otherwise the
handler runs with the profile. -/
def require_auth {User Profile : Type} (env : AuthEnv User Profile)
    (authHeader : Option String) : AuthOutcome Profile :=
  match authHeader with
  | none => .resp ⟨401, "Authorization header is required"⟩
  | some h =>
    if h = "" then .resp ⟨401, "Authorization header is required"⟩
    else
      let parts := pySplitWs h
      if parts.length != 2 || pyLower (parts.headD "") != "bearer" then
        .resp ⟨401, "Invalid authorization header format. Use: Bearer <token>"⟩
      else
        let token := parts.getD 1 ""
        match env.getUser token with
        | .error e => .resp (authExceptResp e)
        | .ok none => .resp ⟨401, "Invalid or expired token"⟩
        | .ok (some u) =>
          match env.getProfile u with
          | .error e => .resp (authExceptResp e)
          | .ok none => .resp ⟨404, "User profile not found"⟩
          | .ok (some p) => .proceed p

/-- The condition the middleware actually enforces on the header: it
splits into exactly two whitespace-separated words whose first is
case-insensitively `bearer`; returns the token word. -/
def bearerToken (h : String) : Option String :=
  match pySplitWs h with
  | [w, t] => if pyLower w = "bearer" then some t else none
  | _ => none

/-- An identity environment that accepts every token. -/
def envW : AuthEnv Unit Unit :=
  { getUser := fun _ => .ok (some ()), getProfile := fun _ => .ok (some ()) }

/-- A payload on which `validate_event_data` raises: the title is an
integer, which is truthy, so the length check calls `len(5)`. -/
def intTitlePayload : PyDict :=
  [("title", .vInt 5), ("description", .vStr "a long enough description"),
   ("datetime", .vStr "2031-01-01T10:00"), ("location", .vStr "Karachi")]

theorem matchHexRun_eq_some_iff (n : Nat) (cs rest : List Char) :
    matchHexRun n cs = some rest ↔
      ∃ g : List Char, cs = g ++ rest ∧ g.length = n ∧ ∀ c ∈ g, isHexChar c = true := by
  induction n generalizing cs with
  | zero =>
    simp only [matchHexRun, Option.some.injEq]
    constructor
    · rintro rfl; exact ⟨[], by simp⟩
    · rintro ⟨g, hcs, hlen, -⟩
      rw [List.length_eq_zero] at hlen
      simp [hlen] at hcs; exact hcs
  | succ n ih =>
    cases cs with
    | nil =>
      simp only [matchHexRun]
      constructor
      · intro h; exact absurd h (by simp)
      · rintro ⟨g, hcs, hlen, -⟩
        cases g with
        | nil => simp at hlen
        | cons a g => simp at hcs
    | cons c cs =>
      simp only [matchHexRun]
      by_cases hc : isHexChar c = true
      · rw [if_pos hc, ih]
        constructor
        · rintro ⟨g, rfl, hlen, hhex⟩
          exact ⟨c :: g, rfl, by simp [hlen], by
            intro x hx
            rcases List.mem_cons.mp hx with rfl | hx
            · exact hc
            · exact hhex x hx⟩
        · rintro ⟨g, hcs, hlen, hhex⟩
          cases g with
          | nil => simp at hlen
          | cons a g =>
            simp only [List.cons_append, List.cons.injEq] at hcs
            obtain ⟨rfl, rfl⟩ := hcs
            exact ⟨g, rfl, by simpa using hlen, fun x hx => hhex x (List.mem_cons_of_mem _ hx)⟩
      · rw [if_neg hc]
        constructor
        · intro h; exact absurd h (by simp)
        · rintro ⟨g, hcs, hlen, hhex⟩
          cases g with
          | nil => simp at hlen
          | cons a g =>
            simp only [List.cons_append, List.cons.injEq] at hcs
            exact absurd (hcs.1 ▸ hhex a (by simp)) hc

theorem expectDash_eq_some_iff (cs rest : List Char) :
    expectDash cs = some rest ↔ cs = '-' :: rest := by
  cases cs with
  | nil => simp [expectDash]
  | cons c cs => by_cases hc : c = '-' <;> simp [expectDash, hc]

theorem matchDashGroup_eq_some_iff (n : Nat) (cs rest : List Char) :
    matchDashGroup n cs = some rest ↔
      ∃ g : List Char, cs = g ++ '-' :: rest ∧ g.length = n ∧ ∀ c ∈ g, isHexChar c = true := by
  unfold matchDashGroup
  rw [Option.bind_eq_some]
  constructor
  · rintro ⟨r, hrun, hdash⟩
    rw [expectDash_eq_some_iff] at hdash
    subst hdash
    exact (matchHexRun_eq_some_iff n cs _).mp hrun
  · rintro ⟨g, rfl, hlen, hhex⟩
    exact ⟨'-' :: rest, (matchHexRun_eq_some_iff n _ _).mpr ⟨g, rfl, hlen, hhex⟩,
      (expectDash_eq_some_iff _ _).mpr rfl⟩

theorem matchUuidBody_eq_some_iff (cs rest : List Char) :
    matchUuidBody cs = some rest ↔
      ∃ g1 g2 g3 g4 g5 : List Char,
        cs = g1 ++ '-' :: (g2 ++ '-' :: (g3 ++ '-' :: (g4 ++ '-' :: (g5 ++ rest)))) ∧
        g1.length = 8 ∧ g2.length = 4 ∧ g3.length = 4 ∧ g4.length = 4 ∧ g5.length = 12 ∧
        (∀ c ∈ g1, isHexChar c = true) ∧ (∀ c ∈ g2, isHexChar c = true) ∧
        (∀ c ∈ g3, isHexChar c = true) ∧ (∀ c ∈ g4, isHexChar c = true) ∧
        (∀ c ∈ g5, isHexChar c = true) := by
  unfold matchUuidBody
  constructor
  · intro h
    rw [Option.bind_eq_some] at h
    obtain ⟨r1, h1, h⟩ := h
    rw [Option.bind_eq_some] at h
    obtain ⟨r2, h2, h⟩ := h
    rw [Option.bind_eq_some] at h
    obtain ⟨r3, h3, h⟩ := h
    rw [Option.bind_eq_some] at h
    obtain ⟨r4, h4, h5⟩ := h
    obtain ⟨g1, rfl, hl1, hh1⟩ := (matchDashGroup_eq_some_iff _ _ _).mp h1
    obtain ⟨g2, rfl, hl2, hh2⟩ := (matchDashGroup_eq_some_iff _ _ _).mp h2
    obtain ⟨g3, rfl, hl3, hh3⟩ := (matchDashGroup_eq_some_iff _ _ _).mp h3
    obtain ⟨g4, rfl, hl4, hh4⟩ := (matchDashGroup_eq_some_iff _ _ _).mp h4
    obtain ⟨g5, rfl, hl5, hh5⟩ := (matchHexRun_eq_some_iff _ _ _).mp h5
    exact ⟨g1, g2, g3, g4, g5, rfl, hl1, hl2, hl3, hl4, hl5, hh1, hh2, hh3, hh4, hh5⟩
  · rintro ⟨g1, g2, g3, g4, g5, rfl, hl1, hl2, hl3, hl4, hl5, hh1, hh2, hh3, hh4, hh5⟩
    rw [Option.bind_eq_some]
    refine ⟨_, (matchDashGroup_eq_some_iff _ _ _).mpr ⟨g1, rfl, hl1, hh1⟩, ?_⟩
    rw [Option.bind_eq_some]
    refine ⟨_, (matchDashGroup_eq_some_iff _ _ _).mpr ⟨g2, rfl, hl2, hh2⟩, ?_⟩
    rw [Option.bind_eq_some]
    refine ⟨_, (matchDashGroup_eq_some_iff _ _ _).mpr ⟨g3, rfl, hl3, hh3⟩, ?_⟩
    rw [Option.bind_eq_some]
    refine ⟨_, (matchDashGroup_eq_some_iff _ _ _).mpr ⟨g4, rfl, hl4, hh4⟩, ?_⟩
    exact (matchHexRun_eq_some_iff _ _ _).mpr ⟨g5, rfl, hl5, hh5⟩

/-- C7: contrary to the validator contract, `validate_event_data` raises
`TypeError` (instead of returning a rejection) on a payload whose title
field holds a number: the truthiness guard admits the value and the
length check calls `len()` on it. -/
theorem validate_event_data_raises_on_int_title :
    validate_event_data intTitlePayload = .error .typeError := by rfl

theorem IsCanonicalUuidList_length {cs : List Char} (h : IsCanonicalUuidList cs) :
    cs.length = 36 := by
  obtain ⟨g1, g2, g3, g4, g5, rfl, h1, h2, h3, h4, h5, -⟩ := h
  simp [h1, h2, h3, h4, h5]

theorem uuidPatternMatch_iff (s : String) :
    uuidPatternMatch s = true ↔
      (matchUuidBody s.data = some [] ∨ matchUuidBody s.data = some ['\n']) := by
  unfold uuidPatternMatch
  cases h : matchUuidBody s.data with
  | none => simp
  | some r =>
    cases r with
    | nil => simp
    | cons c r' =>
      cases r' with
      | nil => simp
      | cons c' r'' => simp

theorem matchUuidBody_nil_iff (cs : List Char) :
    matchUuidBody cs = some [] ↔ IsCanonicalUuidList cs := by
  rw [matchUuidBody_eq_some_iff]
  unfold IsCanonicalUuidList
  simp

theorem matchUuidBody_newline_iff (cs : List Char) :
    matchUuidBody cs = some ['\n'] ↔
      ∃ cs' : List Char, cs = cs' ++ ['\n'] ∧ IsCanonicalUuidList cs' := by
  rw [matchUuidBody_eq_some_iff]
  constructor
  · rintro ⟨g1, g2, g3, g4, g5, rfl, h1, h2, h3, h4, h5, k1, k2, k3, k4, k5⟩
    refine ⟨g1 ++ '-' :: (g2 ++ '-' :: (g3 ++ '-' :: (g4 ++ '-' :: g5))), ?_, ?_⟩
    · simp
    · exact ⟨g1, g2, g3, g4, g5, rfl, h1, h2, h3, h4, h5, k1, k2, k3, k4, k5⟩
  · rintro ⟨cs', rfl, g1, g2, g3, g4, g5, rfl, h1, h2, h3, h4, h5, k1, k2, k3, k4, k5⟩
    refine ⟨g1, g2, g3, g4, g5, ?_, h1, h2, h3, h4, h5, k1, k2, k3, k4, k5⟩
    simp

/-- C6 counterexample: the UUID validator accepts a 37-character string
(a canonical UUID followed by a newline), because the regex is anchored
with `$` under `re.match`, and Python's `$` also matches just before a
trailing newline.  This refutes "accepts a string exactly when it is the
canonical 36-character ... form, and rejects every string that is not of
that form". -/
theorem validate_uuid_trailing_newline_accepted :
    (validate_uuid "12345678-1234-1234-1234-123456789abc\n").1 = true ∧
    ("12345678-1234-1234-1234-123456789abc\n").length ≠ 36 := by decide

/-- C6 (amended): the UUID validator accepts a string exactly when it is
the canonical 36-character 8-4-4-4-12 hyphenated hexadecimal form
(hex digits case-insensitive), or such a canonical form followed by one
trailing newline character; it rejects every other string. -/
theorem validate_uuid_amended (s : String) :
    (validate_uuid s).1 = true ↔
      (IsCanonicalUuid s ∨ ∃ cs : List Char, s.data = cs ++ ['\n'] ∧ IsCanonicalUuidList cs) := by
  unfold validate_uuid
  by_cases h0 : s = ""
  · subst h0
    simp only [if_pos rfl]
    constructor
    · intro h; exact absurd h (by simp)
    · rintro (hc | ⟨cs, hcs, hc⟩)
      · have := IsCanonicalUuidList_length hc
        simp at this
      · have := congrArg List.length hcs
        simp at this
  · rw [if_neg h0]
    have key : IsCanonicalUuid s ∨ (∃ cs, s.data = cs ++ ['\n'] ∧ IsCanonicalUuidList cs) ↔
        uuidPatternMatch s = true := by
      rw [uuidPatternMatch_iff, matchUuidBody_nil_iff, matchUuidBody_newline_iff]
      exact Iff.rfl
    by_cases hm : uuidPatternMatch s
    · simp [hm, key]
    · simp only [Bool.not_eq_true] at hm
      simp [hm, key]

/-- C5: the password validator accepts a string exactly when its length
is at least 8 and it contains a letter (the regex class `[a-zA-Z]`) and
a digit (`\d`); every rejection carries a non-empty reason. -/
theorem validate_password_correct (s : String) :
    ((validate_password s).1 = true ↔
      (8 ≤ s.length ∧ (∃ c ∈ s.data, c.isAlpha = true) ∧ (∃ c ∈ s.data, c.isDigit = true)))
    ∧ ((validate_password s).1 = false → (validate_password s).2 ≠ "") := by
  unfold validate_password
  split_ifs with h1 h2 h3 h4
  · subst h1
    refine ⟨?_, fun _ => by decide⟩
    constructor
    · intro h; exact absurd h (by simp)
    · rintro ⟨hlen, -⟩
      exact absurd hlen (by decide)
  · refine ⟨?_, fun _ => by decide⟩
    constructor
    · intro h; exact absurd h (by simp)
    · rintro ⟨hlen, -⟩; omega
  · simp only [Bool.not_eq_true'] at h3
    refine ⟨?_, fun _ => by decide⟩
    constructor
    · intro h; exact absurd h (by simp)
    · rintro ⟨-, ⟨c, hc, hca⟩, -⟩
      have := List.any_eq_true.mpr ⟨c, hc, hca⟩
      rw [h3] at this; exact absurd this (by simp)
  · simp only [Bool.not_eq_true'] at h4
    refine ⟨?_, fun _ => by decide⟩
    constructor
    · intro h; exact absurd h (by simp)
    · rintro ⟨-, -, ⟨c, hc, hcd⟩⟩
      have := List.any_eq_true.mpr ⟨c, hc, hcd⟩
      rw [h4] at this; exact absurd this (by simp)
  · simp only [Bool.not_eq_true, Bool.not_eq_false'] at h3 h4
    refine ⟨?_, fun h => absurd h (by simp)⟩
    constructor
    · intro _
      exact ⟨by omega, List.any_eq_true.mp h3, List.any_eq_true.mp h4⟩
    · intro _; rfl

/-- C1: for an authenticated RSVP-create request with a well-formed
event UUID (and capacities positive when set, as the data model
requires), the checks run in sequence and the first failure wins:
missing event → 404; inactive event → 400; duplicate (event, account)
RSVP → 400; capacity set and count ≥ capacity → 400; otherwise an RSVP
row is inserted and 201 returned. -/
theorem create_rsvp_first_failure_wins (db : Db) (uid eid : String)
    (huuid : (validate_uuid eid).1 = true)
    (hcap : ∀ e c, findEvent db eid = some e → e.capacity = some c → 0 < c) :
    (findEvent db eid = none →
      create_rsvp db uid eid = (⟨404, "Event not found"⟩, db))
    ∧ (∀ e, findEvent db eid = some e → e.status ≠ "active" →
      create_rsvp db uid eid = (⟨400, "Cannot RSVP to inactive event"⟩, db))
    ∧ (∀ e, findEvent db eid = some e → e.status = "active" → rsvpRows db eid uid ≠ [] →
      create_rsvp db uid eid = (⟨400, "You have already RSVP\x27d to this event"⟩, db))
    ∧ (∀ e cap, findEvent db eid = some e → e.status = "active" → rsvpRows db eid uid = [] →
        e.capacity = some cap → (rsvpCount db eid : Int) ≥ cap →
      create_rsvp db uid eid = (⟨400, "Event is at full capacity"⟩, db))
    ∧ (∀ e, findEvent db eid = some e → e.status = "active" → rsvpRows db eid uid = [] →
        (∀ cap, e.capacity = some cap → (rsvpCount db eid : Int) < cap) →
      create_rsvp db uid eid =
        (⟨201, "RSVP successful"⟩, {db with rsvps := db.rsvps ++ [⟨eid, uid⟩]})) := by
  unfold create_rsvp
  rw [huuid]
  simp only [Bool.not_true, Bool.false_eq_true, if_false]
  refine ⟨?_, ?_, ?_, ?_, ?_⟩
  · intro h; rw [h]
  · intro e he hst; rw [he]; simp only [if_pos hst]
  · intro e he hst hdup
    rw [he]
    have hst' : ¬(e.status ≠ "active") := by simp [hst]
    have hne : (rsvpRows db eid uid).isEmpty = false := by
      cases h : rsvpRows db eid uid with
      | nil => exact absurd h hdup
      | cons a l => rfl
    simp only [if_neg hst', hne, Bool.not_false, if_true]
  · intro e cap he hst hdup hcapEq hge
    rw [he]
    have hst' : ¬(e.status ≠ "active") := by simp [hst]
    have hemp : (rsvpRows db eid uid).isEmpty = true := by rw [hdup]; rfl
    have hcap' : cap ≠ 0 := by
      have := hcap e cap he hcapEq
      omega
    simp only [if_neg hst', hemp, Bool.not_true, Bool.false_eq_true, if_false, hcapEq,
      if_pos hcap', if_pos hge]
  · intro e he hst hdup hlt
    rw [he]
    have hst' : ¬(e.status ≠ "active") := by simp [hst]
    have hemp : (rsvpRows db eid uid).isEmpty = true := by rw [hdup]; rfl
    simp only [if_neg hst', hemp, Bool.not_true, Bool.false_eq_true, if_false]
    cases hc : e.capacity with
    | none => rfl
    | some cap =>
      have hlt' := hlt cap hc
      have hge' : ¬((rsvpCount db eid : Int) ≥ cap) := by omega
      by_cases h0 : cap = 0
      · simp only [if_neg (by simp [h0] : ¬cap ≠ 0)]
      · simp only [if_pos h0, if_neg hge']

theorem create_rsvp_first_failure_wins_witness :
    create_rsvp rsvpDbW "u1" uuidW =
      (⟨201, "RSVP successful"⟩, {rsvpDbW with rsvps := [⟨uuidW, "u1"⟩]}) := by
  have h := create_rsvp_first_failure_wins rsvpDbW "u1" uuidW (by decide)
    (by
      intro e c he hc
      have hfind : findEvent rsvpDbW uuidW = some ⟨uuidW, "active", some 2⟩ := by decide
      rw [hfind] at he
      obtain rfl := Option.some.inj he
      have : (2 : Int) = c := Option.some.inj hc
      omega)
  refine (h.2.2.2.2 ⟨uuidW, "active", some 2⟩ (by decide) (by decide) (by decide) ?_).trans ?_
  · intro cap hcap
    have : (2 : Int) = cap := Option.some.inj hcap
    have hcnt : rsvpCount rsvpDbW uuidW = 0 := by decide
    omega
  · decide

theorem filterKey_nil_or_singleton (ms : List MemberRec) (gid uid : String)
    (h : MembersUnique ms) :
    ms.filter (fun m => m.groupId == gid && m.userId == uid) = [] ∨
      ∃ m, ms.filter (fun m => m.groupId == gid && m.userId == uid) = [m] := by
  induction ms with
  | nil => exact Or.inl rfl
  | cons a t ih =>
    rw [MembersUnique, List.pairwise_cons] at h
    obtain ⟨ha, ht⟩ := h
    by_cases hk : (a.groupId == gid && a.userId == uid) = true
    · refine Or.inr ⟨a, ?_⟩
      have hnil : t.filter (fun m => m.groupId == gid && m.userId == uid) = [] := by
        rw [List.filter_eq_nil_iff]
        intro b hb hkb
        simp only [Bool.and_eq_true, beq_iff_eq] at hk hkb
        exact ha b hb ⟨hk.1.trans hkb.1.symm, hk.2.trans hkb.2.symm⟩
      simp [List.filter_cons, hk, hnil]
    · simpa [List.filter_cons, hk] using ih ht

theorem length_filter_and_split {α : Type} (p q : α → Bool) (l : List α) :
    (l.filter p).length =
      (l.filter (fun a => p a && q a)).length + (l.filter (fun a => p a && !q a)).length := by
  induction l with
  | nil => rfl
  | cons a t ih =>
    by_cases hp : p a = true <;> by_cases hq : q a = true <;>
      simp [List.filter_cons, hp, hq] <;> omega

theorem length_filter_mono {α : Type} {p q : α → Bool} (h : ∀ a, p a = true → q a = true)
    (l : List α) : (l.filter p).length ≤ (l.filter q).length := by
  induction l with
  | nil => simp
  | cons a t ih =>
    by_cases hp : p a = true
    · rw [List.filter_cons_of_pos hp, List.filter_cons_of_pos (h a hp)]
      simpa using ih
    · rw [List.filter_cons_of_neg hp]
      by_cases hq : q a = true
      · rw [List.filter_cons_of_pos hq]
        exact ih.trans (by simp)
      · rw [List.filter_cons_of_neg hq]
        exact ih

theorem adminRows_delete_eq_of_nonadmin (ms : List MemberRec) (gid uid : String)
    (m : MemberRec)
    (hm : ms.filter (fun r => r.groupId == gid && r.userId == uid) = [m])
    (hrole : m.role ≠ "admin") :
    (adminRows (ms.filter (fun r => !(r.groupId == gid && r.userId == uid))) gid).length =
      (adminRows ms gid).length := by
  unfold adminRows
  rw [List.filter_filter]
  have hsplit := length_filter_and_split (fun r => r.groupId == gid && r.role == "admin")
    (fun r => r.groupId == gid && r.userId == uid) ms
  have hzero :
      (ms.filter (fun r => (r.groupId == gid && r.role == "admin") &&
        (r.groupId == gid && r.userId == uid))).length = 0 := by
    rw [List.length_eq_zero, List.filter_eq_nil_iff]
    intro x hx hpx
    simp only [Bool.and_eq_true, beq_iff_eq] at hpx
    have hxf : x ∈ ms.filter (fun r => r.groupId == gid && r.userId == uid) :=
      List.mem_filter.mpr ⟨hx, by simp [hpx.2.1, hpx.2.2]⟩
    rw [hm] at hxf
    have hxm : x = m := by simpa using hxf
    exact hrole (hxm ▸ hpx.1.2)
  omega

theorem adminRows_delete_ge (ms : List MemberRec) (gid uid : String)
    (huniq : MembersUnique ms) :
    (adminRows ms gid).length ≤
      (adminRows (ms.filter (fun r => !(r.groupId == gid && r.userId == uid))) gid).length
        + 1 := by
  unfold adminRows
  rw [List.filter_filter]
  have hsplit := length_filter_and_split (fun r => r.groupId == gid && r.role == "admin")
    (fun r => r.groupId == gid && r.userId == uid) ms
  have hmono :
      (ms.filter (fun r => (r.groupId == gid && r.role == "admin") &&
        (r.groupId == gid && r.userId == uid))).length ≤
      (ms.filter (fun r => r.groupId == gid && r.userId == uid)).length :=
    length_filter_mono (fun a h => (Bool.and_eq_true _ _).mp h |>.2) ms
  have hkey : (ms.filter (fun r => r.groupId == gid && r.userId == uid)).length ≤ 1 := by
    rcases filterKey_nil_or_singleton ms gid uid huniq with h | ⟨m, h⟩ <;> simp [h]
  omega

/-- C2: the leave-group handler never removes a group's last admin: a
non-member's request is rejected (404) with the store unchanged; the
sole admin's request is rejected (400) with the store unchanged; every
other member's request deletes exactly that member's rows and returns
200; and a group that has at least one admin row before a leave request
still has at least one afterwards (membership rows being unique per
(group, account) pair). -/
theorem leave_group_protects_last_admin (db : Db) (uid gid : String)
    (huuid : (validate_uuid gid).1 = true)
    (huniq : MembersUnique db.members) :
    ((memberRows db gid uid).head? = none →
      leave_group db uid gid = (⟨404, "You are not a member of this group"⟩, db))
    ∧ (∀ m, (memberRows db gid uid).head? = some m → m.role = "admin" →
        adminCount db gid = 1 →
      leave_group db uid gid = (⟨400,
        "Cannot leave group: you are the only admin. Please assign another admin first or delete the group."⟩,
        db))
    ∧ (∀ m, (memberRows db gid uid).head? = some m →
        (m.role ≠ "admin" ∨ adminCount db gid ≠ 1) →
      leave_group db uid gid = (⟨200, "Successfully left group"⟩,
        {db with members :=
          db.members.filter (fun r => !(r.groupId == gid && r.userId == uid))}))
    ∧ (1 ≤ adminCount db gid → 1 ≤ adminCount (leave_group db uid gid).2 gid) := by
  unfold leave_group
  rw [huuid]
  simp only [Bool.not_true, Bool.false_eq_true, if_false]
  refine ⟨?_, ?_, ?_, ?_⟩
  · intro h; rw [h]
  · intro m hm hrole hcount
    rw [hm]
    simp [hrole, hcount]
  · intro m hm hfail
    rw [hm]
    have hc : (m.role == "admin" && adminCount db gid == 1) = false := by
      rcases hfail with h | h <;> simp [beq_iff_eq, h]
    simp [hc]
  · intro hone
    cases hh : (memberRows db gid uid).head? with
    | none => simpa using hone
    | some m =>
      by_cases hcond : (m.role == "admin" && adminCount db gid == 1) = true
      · simp only [hcond, if_true]
        simpa using hone
      · rw [Bool.not_eq_true] at hcond
        simp only [hcond, Bool.false_eq_true, if_false]
        have hsing : db.members.filter (fun r => r.groupId == gid && r.userId == uid) = [m] := by
          rcases filterKey_nil_or_singleton db.members gid uid huniq with h | ⟨m', h⟩
          · rw [memberRows] at hh; rw [h] at hh; exact absurd hh (by simp)
          · rw [memberRows] at hh; rw [h] at hh
            obtain rfl : m' = m := by simpa using hh
            exact h
        by_cases hrole : m.role = "admin"
        · have hcnt : adminCount db gid ≠ 1 := by
            intro h1
            have hx : (m.role == "admin" && adminCount db gid == 1) = true := by
              simp [hrole, h1]
            rw [hcond] at hx
            exact absurd hx (by simp)
          have hge2 : 2 ≤ adminCount db gid := by
            have hmemAdmin : m ∈ adminRows db.members gid := by
              have hmf : m ∈ db.members.filter
                  (fun r => r.groupId == gid && r.userId == uid) := by
                rw [hsing]; exact List.mem_singleton.mpr rfl
              have := List.mem_filter.mp hmf
              refine List.mem_filter.mpr ⟨this.1, ?_⟩
              have hk := this.2
              simp only [Bool.and_eq_true, beq_iff_eq] at hk ⊢
              exact ⟨hk.1, hrole⟩
            have : 1 ≤ adminCount db gid := by
              rw [adminCount]
              exact List.length_pos.mpr (List.ne_nil_of_mem hmemAdmin)
            omega
          have := adminRows_delete_ge db.members gid uid huniq
          rw [adminCount] at hge2 ⊢
          simp only
          omega
        · have := adminRows_delete_eq_of_nonadmin db.members gid uid m hsing hrole
          rw [adminCount] at hone ⊢
          simp only
          omega

theorem leave_group_protects_last_admin_witness :
    leave_group leaveDbW "u1" uuidW2 =
      (⟨200, "Successfully left group"⟩,
        {leaveDbW with members := [⟨uuidW2, "u2", "admin"⟩]}) := by
  have h := leave_group_protects_last_admin leaveDbW "u1" uuidW2 (by decide)
    (by unfold MembersUnique; decide)
  have h3 := h.2.2.1 ⟨uuidW2, "u1", "member"⟩ (by decide) (Or.inl (by decide))
  exact h3.trans (by decide)

theorem applyBeforeCursor_subset (db : Db) (beforeId : Option String)
    (base : List MessageRec) : applyBeforeCursor db beforeId base ⊆ base := by
  unfold applyBeforeCursor
  cases beforeId with
  | none => exact fun _ h => h
  | some bid =>
    by_cases hb : (validate_uuid bid).1 = true
    · simp only [hb, if_true]
      cases (db.messages.filter (fun m => m.id == bid)).head? with
      | none => exact fun _ h => h
      | some beforeMsg => exact List.filter_subset' base
    · rw [Bool.not_eq_true] at hb
      simp only [hb, Bool.false_eq_true, if_false]
      exact fun _ h => h

theorem page_reverse_props (base : List MessageRec) (gid : String) (n : Nat)
    (hbase : ∀ m ∈ base, m.groupId = gid ∧ m.isDeleted = false) :
    ((List.insertionSort msgNewerFirst base).take n).reverse.length ≤ n
    ∧ (∀ m ∈ ((List.insertionSort msgNewerFirst base).take n).reverse,
        m.groupId = gid ∧ m.isDeleted = false)
    ∧ List.Sorted (fun a b : MessageRec => a.createdAt ≤ b.createdAt)
        ((List.insertionSort msgNewerFirst base).take n).reverse := by
  refine ⟨?_, ?_, ?_⟩
  · rw [List.length_reverse]
    exact List.length_take_le _ _
  · intro m hm
    rw [List.mem_reverse] at hm
    have hm2 : m ∈ List.insertionSort msgNewerFirst base :=
      (List.take_sublist n _).subset hm
    have hm3 : m ∈ base := (List.perm_insertionSort msgNewerFirst base).mem_iff.mp hm2
    exact hbase m hm3
  · have hs : List.Sorted msgNewerFirst (List.insertionSort msgNewerFirst base) :=
      List.sorted_insertionSort msgNewerFirst base
    have hp : List.Pairwise msgNewerFirst
        ((List.insertionSort msgNewerFirst base).take n) :=
      List.Pairwise.sublist (List.take_sublist n _) hs
    rw [List.Sorted, List.pairwise_reverse]
    exact hp

/-- C9: in the message-listing handler the limit parameter is clamped —
absent → 50, below 1 → 50, above 100 → 100, always ending in [1,100] —
and a member's request returns at most that many messages, all from the
requested group and none soft-deleted, ordered oldest first. -/
theorem get_messages_limit_clamped (db : Db) (uid gid : String) (limitArg : Option Int)
    (beforeId : Option String)
    (huuid : (validate_uuid gid).1 = true)
    (hmem : memberRows db gid uid ≠ []) :
    clampLimit none = 50
    ∧ (∀ l : Int, l < 1 → clampLimit (some l) = 50)
    ∧ (∀ l : Int, l > 100 → clampLimit (some l) = 100)
    ∧ (1 ≤ clampLimit limitArg ∧ clampLimit limitArg ≤ 100)
    ∧ (∃ msgs hasMore, get_messages db uid gid limitArg beforeId = .ok msgs hasMore
        ∧ msgs.length ≤ (clampLimit limitArg).toNat
        ∧ (∀ m ∈ msgs, m.groupId = gid ∧ m.isDeleted = false)
        ∧ List.Sorted (fun a b : MessageRec => a.createdAt ≤ b.createdAt) msgs) := by
  refine ⟨rfl, ?_, ?_, ?_, ?_⟩
  · intro l hl
    simp [clampLimit, hl]
  · intro l hl
    have h1 : ¬(l < 1) := by omega
    simp [clampLimit, h1, hl]
  · unfold clampLimit
    cases limitArg with
    | none => simp
    | some l => simp only [Option.getD_some]; split_ifs <;> omega
  · have hne : (memberRows db gid uid).isEmpty = false := by
      cases h : memberRows db gid uid with
      | nil => exact absurd h hmem
      | cons a l => rfl
    unfold get_messages
    rw [huuid]
    simp only [Bool.not_true, Bool.false_eq_true, if_false, hne, if_true]
    have hbase : ∀ m ∈ applyBeforeCursor db beforeId
        (db.messages.filter (fun m => m.groupId == gid && m.isDeleted == false)),
        m.groupId = gid ∧ m.isDeleted = false := by
      intro m hm
      have hm2 := applyBeforeCursor_subset db beforeId _ hm
      have hm3 := List.mem_filter.mp hm2
      have := hm3.2
      simp only [Bool.and_eq_true, beq_iff_eq] at this
      exact this
    obtain ⟨hlen, hmemprops, hsorted⟩ := page_reverse_props
      (applyBeforeCursor db beforeId
        (db.messages.filter (fun m => m.groupId == gid && m.isDeleted == false)))
      gid (clampLimit limitArg).toNat hbase
    exact ⟨_, _, rfl, hlen, hmemprops, hsorted⟩

theorem get_messages_limit_clamped_witness :
    clampLimit none = 50
    ∧ (∀ l : Int, l < 1 → clampLimit (some l) = 50)
    ∧ (∀ l : Int, l > 100 → clampLimit (some l) = 100)
    ∧ (1 ≤ clampLimit (some 7) ∧ clampLimit (some 7) ≤ 100)
    ∧ (∃ msgs hasMore, get_messages chatDbW "u1" uuidW2 (some 7) none = .ok msgs hasMore
        ∧ msgs.length ≤ (clampLimit (some 7)).toNat
        ∧ (∀ m ∈ msgs, m.groupId = uuidW2 ∧ m.isDeleted = false)
        ∧ List.Sorted (fun a b : MessageRec => a.createdAt ≤ b.createdAt) msgs) :=
  get_messages_limit_clamped chatDbW "u1" uuidW2 (some 7) none (by decide) (by decide)

theorem get_messages_ok_mem (db : Db) (uid gid : String) (lim : Option Int)
    (before : Option String) (msgs : List MessageRec) (hasMore : Bool)
    (hok : get_messages db uid gid lim before = .ok msgs hasMore) :
    ∀ m ∈ msgs, m ∈ db.messages ∧ m.groupId = gid ∧ m.isDeleted = false := by
  unfold get_messages at hok
  split_ifs at hok with h1 h2
  obtain ⟨hP, -⟩ := MsgsResult.ok.inj hok
  subst hP
  intro m hm
  rw [List.mem_reverse] at hm
  have hm2 := (List.take_sublist _ _).subset hm
  have hm3 := (List.perm_insertionSort msgNewerFirst _).mem_iff.mp hm2
  have hm4 := applyBeforeCursor_subset db before _ hm3
  have hm5 := List.mem_filter.mp hm4
  refine ⟨hm5.1, ?_⟩
  have h6 := hm5.2
  simp only [Bool.and_eq_true, beq_iff_eq] at h6
  exact h6

theorem memberHeadAdmin_iff (db : Db) (gid uid : String)
    (huniq : MembersUnique db.members) :
    (match memberRows db gid uid with
      | [] => false
      | r :: _ => r.role == "admin") = true ↔
    (∃ r ∈ db.members, r.groupId = gid ∧ r.userId = uid ∧ r.role = "admin") := by
  rcases filterKey_nil_or_singleton db.members gid uid huniq with h | ⟨m, h⟩
  · rw [show memberRows db gid uid =
      db.members.filter (fun m => m.groupId == gid && m.userId == uid) from rfl, h]
    simp only [Bool.false_eq_true, false_iff]
    rintro ⟨r, hr, hg, hu, -⟩
    have : r ∈ db.members.filter (fun m => m.groupId == gid && m.userId == uid) :=
      List.mem_filter.mpr ⟨hr, by simp [hg, hu]⟩
    rw [h] at this
    exact absurd this (List.not_mem_nil r)
  · rw [show memberRows db gid uid =
      db.members.filter (fun m => m.groupId == gid && m.userId == uid) from rfl, h]
    simp only [beq_iff_eq]
    constructor
    · intro hrole
      have hmf : m ∈ db.members.filter (fun m => m.groupId == gid && m.userId == uid) := by
        rw [h]; exact List.mem_singleton.mpr rfl
      have hmf2 := List.mem_filter.mp hmf
      have hk := hmf2.2
      simp only [Bool.and_eq_true, beq_iff_eq] at hk
      exact ⟨m, hmf2.1, hk.1, hk.2, hrole⟩
    · rintro ⟨r, hr, hg, hu, hrole⟩
      have : r ∈ db.members.filter (fun m => m.groupId == gid && m.userId == uid) :=
        List.mem_filter.mpr ⟨hr, by simp [hg, hu]⟩
      rw [h] at this
      obtain rfl : r = m := by simpa using this
      exact hrole

/-- C3: deleting an existing message succeeds (200) exactly when the
requester is the sender or holds an admin membership in the group; any
other requester gets 403 with the store unchanged; success only flips
the message's `is_deleted` flag (the row count never changes), and the
flagged message is excluded from every subsequent listing. -/
theorem delete_message_sender_or_admin (db : Db) (uid gid mid : String)
    (huuidg : (validate_uuid gid).1 = true)
    (huuidm : (validate_uuid mid).1 = true)
    (huniq : MembersUnique db.members)
    (message : MessageRec)
    (hfound : findMessage db gid mid = some message) :
    ((delete_message db uid gid mid).1.status = 200 ↔ MayDelete db uid gid message)
    ∧ (¬MayDelete db uid gid message →
      delete_message db uid gid mid =
        (⟨403, "You can only delete your own messages or if you are a group admin"⟩, db))
    ∧ (MayDelete db uid gid message →
      delete_message db uid gid mid = (⟨200, "Message deleted successfully"⟩,
        {db with messages :=
          db.messages.map (fun m => if m.id == mid then {m with isDeleted := true} else m)}))
    ∧ ((delete_message db uid gid mid).2.messages.length = db.messages.length)
    ∧ (MayDelete db uid gid message →
      ∀ gid2 uid2 lim before msgs hasMore,
        get_messages (delete_message db uid gid mid).2 uid2 gid2 lim before =
          .ok msgs hasMore →
        ∀ m ∈ msgs, m.id ≠ mid) := by
  have hred : delete_message db uid gid mid =
      if !(message.userId == uid) &&
          !(match memberRows db gid uid with
            | [] => false
            | r :: _ => r.role == "admin") then
        (⟨403, "You can only delete your own messages or if you are a group admin"⟩, db)
      else
        (⟨200, "Message deleted successfully"⟩,
          {db with messages :=
            db.messages.map (fun m => if m.id == mid then {m with isDeleted := true} else m)}) := by
    unfold delete_message
    rw [huuidg, huuidm]
    simp only [Bool.not_true, Bool.false_eq_true, if_false]
    rw [hfound]
  have hMayIff : MayDelete db uid gid message ↔
      ((message.userId == uid) = true ∨
        (match memberRows db gid uid with
          | [] => false
          | r :: _ => r.role == "admin") = true) := by
    rw [MayDelete, memberHeadAdmin_iff db gid uid huniq, beq_iff_eq]
  by_cases hmay : MayDelete db uid gid message
  · have hcond : (!(message.userId == uid) &&
        !(match memberRows db gid uid with
          | [] => false
          | r :: _ => r.role == "admin")) = false := by
      rcases hMayIff.mp hmay with h | h <;> simp [h]
    have hdel : delete_message db uid gid mid = (⟨200, "Message deleted successfully"⟩,
        {db with messages :=
          db.messages.map (fun m => if m.id == mid then {m with isDeleted := true} else m)}) := by
      rw [hred, hcond]; rfl
    refine ⟨by rw [hdel]; simpa using hmay, fun h => absurd hmay h, fun _ => hdel, ?_, ?_⟩
    · rw [hdel]; simp
    · intro _ gid2 uid2 lim before msgs hasMore hok m hm
      rw [hdel] at hok
      have hprops := get_messages_ok_mem _ uid2 gid2 lim before msgs hasMore hok m hm
      obtain ⟨hmem, -, hdelflag⟩ := hprops
      simp only at hmem
      obtain ⟨orig, horig, hf⟩ := List.mem_map.mp hmem
      intro hid
      by_cases ho : (orig.id == mid) = true
      · rw [if_pos ho] at hf
        rw [← hf] at hdelflag
        exact absurd hdelflag (by simp)
      · rw [if_neg ho] at hf
        rw [← hf] at hid
        exact ho (by simp [hid])
  · have hcond : (!(message.userId == uid) &&
        !(match memberRows db gid uid with
          | [] => false
          | r :: _ => r.role == "admin")) = true := by
      have hns : (message.userId == uid) = false := by
        cases hh : (message.userId == uid) with
        | false => rfl
        | true => exact absurd (hMayIff.mpr (Or.inl hh)) hmay
      have hna : (match memberRows db gid uid with
          | [] => false
          | r :: _ => r.role == "admin") = false := by
        cases hh : (match memberRows db gid uid with
          | [] => false
          | r :: _ => r.role == "admin") with
        | false => rfl
        | true => exact absurd (hMayIff.mpr (Or.inr hh)) hmay
      rw [hns, hna]; rfl
    have hdel : delete_message db uid gid mid =
        (⟨403, "You can only delete your own messages or if you are a group admin"⟩, db) := by
      rw [hred, hcond]; rfl
    refine ⟨?_, fun _ => hdel, fun h => absurd h hmay, by rw [hdel], fun h => absurd h hmay⟩
    rw [hdel]
    simp only [false_iff]
    constructor
    · intro h; exact absurd h (by decide)
    · intro h; exact absurd h hmay

theorem delete_message_sender_or_admin_witness :
    delete_message chatDbW "u1" uuidW2 uuidW = (⟨200, "Message deleted successfully"⟩,
      {chatDbW with messages := [⟨uuidW, uuidW2, "u2", "hello", 5, true⟩]}) := by
  have hmay : MayDelete chatDbW "u1" uuidW2 ⟨uuidW, uuidW2, "u2", "hello", 5, false⟩ := by
    unfold MayDelete
    exact Or.inr ⟨⟨uuidW2, "u1", "admin"⟩, by decide, rfl, rfl, rfl⟩
  have h := delete_message_sender_or_admin chatDbW "u1" uuidW2 uuidW (by decide) (by decide)
    (by unfold MembersUnique; decide) ⟨uuidW, uuidW2, "u2", "hello", 5, false⟩ (by decide)
  exact (h.2.2.1 hmay).trans (by decide)

/-- C10: a private group is served to non-members exactly like a group
that does not exist: a caller without identity, or without a membership
row, receives 404 "Group not found" — identical to the missing-group
response — and the handler can never answer 403, so the response does
not reveal whether the private group exists. -/
theorem get_group_private_indistinguishable (db : Db) (gid : String)
    (huuid : (validate_uuid gid).1 = true) :
    (findGroup db gid = none →
      ∀ user, get_group db user gid = .err ⟨404, "Group not found"⟩)
    ∧ (∀ grp, findGroup db gid = some grp → grp.isPublic = false →
        (get_group db none gid = .err ⟨404, "Group not found"⟩
         ∧ ∀ uid, memberRows db gid uid = [] →
            get_group db (some uid) gid = .err ⟨404, "Group not found"⟩))
    ∧ (∀ user r, get_group db user gid = .err r → r.status ≠ 403) := by
  unfold get_group
  rw [huuid]
  simp only [Bool.not_true, Bool.false_eq_true, if_false]
  refine ⟨?_, ?_, ?_⟩
  · intro h user; rw [h]
  · intro grp hg hpriv
    rw [hg]
    simp only [hpriv, Bool.not_false, if_true]
    refine ⟨by trivial, ?_⟩
    intro uid hmem
    have : (memberRows db gid uid).isEmpty = true := by rw [hmem]; rfl
    simp only [this, if_true]
  · intro user r hr hstatus
    rcases hfind : findGroup db gid with - | grp
    · rw [hfind] at hr
      obtain rfl := GetGroupResult.err.inj hr
      exact absurd hstatus (by decide)
    · rw [hfind] at hr
      by_cases hpub : grp.isPublic = true
      · simp only [hpub, Bool.not_true, Bool.false_eq_true, if_false] at hr
        exact absurd hr (by simp)
      · rw [Bool.not_eq_true] at hpub
        simp only [hpub, Bool.not_false, if_true] at hr
        cases user with
        | none =>
          obtain rfl := GetGroupResult.err.inj hr
          exact absurd hstatus (by decide)
        | some uid =>
          by_cases hm : (memberRows db gid uid).isEmpty = true
          · simp only [hm, if_true] at hr
            obtain rfl := GetGroupResult.err.inj hr
            exact absurd hstatus (by decide)
          · rw [Bool.not_eq_true] at hm
            simp only [hm, Bool.false_eq_true, if_false] at hr
            exact absurd hr (by simp)

theorem get_group_private_indistinguishable_witness :
    get_group privDbW none uuidW2 = .err ⟨404, "Group not found"⟩
    ∧ get_group privDbW (some "u1") uuidW2 = .err ⟨404, "Group not found"⟩ := by
  have h := get_group_private_indistinguishable privDbW uuidW2 (by decide)
  have h2 := h.2.1 ⟨uuidW2, false, "secret", "hidden group", "u2"⟩ (by decide) (by decide)
  exact ⟨h2.1, h2.2 "u1" (by decide)⟩

theorem authExceptResp_is_401 (e : String) : ∃ msg, authExceptResp e = ⟨401, msg⟩ := by
  unfold authExceptResp
  split_ifs <;> exact ⟨_, rfl⟩

theorem require_auth_token_eq {User Profile : Type} (env : AuthEnv User Profile)
    (h w t : String) (hne : h ≠ "") (hp : pySplitWs h = [w, t])
    (hw : pyLower w = "bearer") :
    require_auth env (some h) =
      (match env.getUser t with
       | .error e => .resp (authExceptResp e)
       | .ok none => .resp ⟨401, "Invalid or expired token"⟩
       | .ok (some u) =>
         match env.getProfile u with
         | .error e => .resp (authExceptResp e)
         | .ok none => .resp ⟨404, "User profile not found"⟩
         | .ok (some p) => .proceed p) := by
  unfold require_auth
  simp only [if_neg hne, hp, hw, List.length_cons, List.length_nil, List.headD_cons,
    List.getD_cons_succ, List.getD_cons_zero, bne_self_eq_false, Bool.or_self,
    Bool.false_eq_true, if_false]

/-- C4 counterexample: a header whose scheme word is lower-case `bearer`
is not exactly of the form `Bearer <token>`, yet required-mode auth
resolves it and runs the wrapped handler (under an identity collaborator
that accepts the token).  This refutes "if the Authorization header ...
is not exactly of the form `Bearer <token>`, the response is 401 and the
wrapped handler never runs". -/
theorem require_auth_lowercase_scheme_accepted :
    require_auth envW (some "bearer tok") = .proceed ()
    ∧ ¬∃ t : String, "bearer tok" = "Bearer " ++ t := by
  refine ⟨by decide, ?_⟩
  rintro ⟨t, ht⟩
  have hd := congrArg String.data ht
  rw [String.data_append] at hd
  have hh := congrArg List.head? hd
  simp at hh

/-- C4 (amended): required-mode auth rejects with 401 exactly the
headers that are absent, empty, or do not split into exactly two
whitespace-separated words with the first case-insensitively equal to
`bearer`; with a well-formed header, resolution failure or exception
gives 401, a resolved user without a profile row gives 404, and
otherwise the handler runs with the resolved profile. -/
theorem require_auth_amended {User Profile : Type} (env : AuthEnv User Profile)
    (h? : Option String) :
    ((h? = none ∨ h? = some "") →
      require_auth env h? = .resp ⟨401, "Authorization header is required"⟩)
    ∧ (∀ h, h? = some h → h ≠ "" → bearerToken h = none →
      require_auth env h? =
        .resp ⟨401, "Invalid authorization header format. Use: Bearer <token>"⟩)
    ∧ (∀ h t, h? = some h → h ≠ "" → bearerToken h = some t →
        ((∀ e, env.getUser t = .error e →
            ∃ msg, require_auth env h? = .resp ⟨401, msg⟩)
         ∧ (env.getUser t = .ok none →
            require_auth env h? = .resp ⟨401, "Invalid or expired token"⟩)
         ∧ (∀ u, env.getUser t = .ok (some u) →
            ((∀ e, env.getProfile u = .error e →
                ∃ msg, require_auth env h? = .resp ⟨401, msg⟩)
             ∧ (env.getProfile u = .ok none →
                require_auth env h? = .resp ⟨404, "User profile not found"⟩)
             ∧ (∀ p, env.getProfile u = .ok (some p) →
                require_auth env h? = .proceed p))))) := by
  refine ⟨?_, ?_, ?_⟩
  · rintro (rfl | rfl)
    · rfl
    · rfl
  · rintro h rfl hne htok
    unfold require_auth
    simp only [if_neg hne]
    unfold bearerToken at htok
    rcases hp : pySplitWs h with - | ⟨w, - | ⟨t0, - | ⟨x, rest⟩⟩⟩
    · simp [hp]
    · simp [hp]
    · rw [hp] at htok
      have hw : pyLower w ≠ "bearer" := by
        intro hw
        simp only [if_pos hw] at htok
        exact Option.noConfusion htok
      simp [hp, hw]
    · simp [hp]
  · rintro h t rfl hne htok
    unfold bearerToken at htok
    rcases hp : pySplitWs h with - | ⟨w, - | ⟨t0, - | ⟨x, rest⟩⟩⟩ <;> rw [hp] at htok
    · exact absurd htok (by simp)
    · exact absurd htok (by simp)
    · by_cases hw : pyLower w = "bearer"
      · simp only [if_pos hw] at htok
        obtain rfl : t0 = t := Option.some.inj htok
        have hred := require_auth_token_eq env h w t0 hne hp hw
        refine ⟨?_, ?_, ?_⟩
        · intro e he
          obtain ⟨msg, hmsg⟩ := authExceptResp_is_401 e
          exact ⟨msg, by rw [hred, he]; simp only [hmsg]⟩
        · intro he; rw [hred, he]
        · intro u hu
          refine ⟨?_, ?_, ?_⟩
          · intro e he
            obtain ⟨msg, hmsg⟩ := authExceptResp_is_401 e
            exact ⟨msg, by rw [hred, hu]; simp only [he, hmsg]⟩
          · intro he; rw [hred, hu]; simp only [he]
          · intro p hpr; rw [hred, hu]; simp only [hpr]
      · simp only [if_neg hw] at htok
        exact Option.noConfusion htok
    · exact absurd htok (by simp)

theorem require_auth_amended_witness :
    require_auth envW (some "Bearer tok") = .proceed () := by
  have h := require_auth_amended envW (some "Bearer tok")
  exact (((h.2.2 "Bearer tok" "tok" rfl (by decide) (by decide)).2.2 () rfl).2.2 () rfl)

/-- C8: a group-payload validator performing the composite
required-fields-plus-range check on name and description exists
(modelled from the spec, its definition being absent from the sources),
and the create-group handler applies it to every request before
inserting: a missing body or failed required-fields check gives 400
with the store unchanged, a failed composite check gives 400 with the
store unchanged, the store changes only when the composite check
passed, and on success exactly the new group row is appended. -/
theorem create_group_applies_validator (db : Db) (uid newId : String)
    (body : Option PyDict) :
    (create_group db uid newId none = (⟨400, "Request body is required"⟩, db))
    ∧ (∀ data, body = some data →
        validate_required_fields data ["name", "description"] ≠ [] →
        (create_group db uid newId body).1.status = 400
          ∧ (create_group db uid newId body).2 = db)
    ∧ (∀ data v errs, body = some data → validate_group_data data = .ok (v, errs) →
        v = false →
        (create_group db uid newId body).1.status = 400
          ∧ (create_group db uid newId body).2 = db)
    ∧ (∀ data, body = some data → (create_group db uid newId body).2 ≠ db →
        ∃ errs, validate_group_data data = .ok (true, errs))
    ∧ (∀ data errs nv dv name desc, body = some data →
        data.isEmpty = false →
        validate_required_fields data ["name", "description"] = [] →
        validate_group_data data = .ok (true, errs) →
        dictGet data "name" = some nv → dictGet data "description" = some dv →
        pyStripVal nv = .ok name → pyStripVal dv = .ok desc →
        create_group db uid newId body = (⟨201, "Group created successfully"⟩,
          {db with groups := db.groups ++ [⟨newId, isPublicOf data, name, desc, uid⟩]})) := by
  refine ⟨rfl, ?_, ?_, ?_, ?_⟩
  · rintro data rfl hreq
    unfold create_group
    by_cases he : data.isEmpty = true
    · simp only [he, if_true]
      constructor <;> trivial
    · rw [Bool.not_eq_true] at he
      have hne : (validate_required_fields data ["name", "description"]).isEmpty = false := by
        cases hc : validate_required_fields data ["name", "description"] with
        | nil => exact absurd hc hreq
        | cons a l => rfl
      simp only [he, Bool.false_eq_true, if_false, hne, Bool.not_false, if_true]
      constructor <;> trivial
  · rintro data v errs rfl hval hvfalse
    subst hvfalse
    unfold create_group
    by_cases he : data.isEmpty = true
    · simp only [he, if_true]
      constructor <;> trivial
    · rw [Bool.not_eq_true] at he
      simp only [he, Bool.false_eq_true, if_false]
      by_cases hreq : (validate_required_fields data ["name", "description"]).isEmpty = true
      · simp only [hreq, Bool.not_true, Bool.false_eq_true, if_false, hval, Bool.not_false,
          if_true]
        constructor <;> trivial
      · rw [Bool.not_eq_true] at hreq
        simp only [hreq, Bool.not_false, if_true]
        constructor <;> trivial
  · rintro data rfl hchange
    unfold create_group at hchange
    by_cases he : data.isEmpty = true
    · simp only [he, if_true] at hchange
      exact absurd rfl hchange
    · rw [Bool.not_eq_true] at he
      simp only [he, Bool.false_eq_true, if_false] at hchange
      by_cases hreq : (validate_required_fields data ["name", "description"]).isEmpty = true
      · simp only [hreq, Bool.not_true, Bool.false_eq_true, if_false] at hchange
        cases hval : validate_group_data data with
        | error e =>
          simp only [hval] at hchange
          exact absurd rfl hchange
        | ok p =>
          obtain ⟨v, errs⟩ := p
          cases v with
          | false =>
            simp only [hval, Bool.not_false, if_true] at hchange
            exact absurd rfl hchange
          | true => exact ⟨errs, rfl⟩
      · rw [Bool.not_eq_true] at hreq
        simp only [hreq, Bool.not_false, if_true] at hchange
        exact absurd rfl hchange
  · rintro data errs nv dv name desc rfl hne hreqnil hval hnv hdv hsn hsd
    unfold create_group
    have hreq : (validate_required_fields data ["name", "description"]).isEmpty = true := by
      rw [hreqnil]; rfl
    simp only [hne, Bool.false_eq_true, if_false, hreq, Bool.not_true, hval, Bool.not_false,
      if_true, hnv, hdv, hsn, hsd]

theorem create_group_applies_validator_witness :
    create_group rsvpDbW "u1" uuidW2 (some groupBodyW) =
      (⟨201, "Group created successfully"⟩,
        {rsvpDbW with groups :=
          [⟨uuidW2, true, "Tech Enthusiasts", "A group for tech lovers", "u1"⟩]}) := by
  have h := create_group_applies_validator rsvpDbW "u1" uuidW2 (some groupBodyW)
  have h5 := h.2.2.2.2 groupBodyW [] (.vStr "Tech Enthusiasts")
    (.vStr "A group for tech lovers") "Tech Enthusiasts" "A group for tech lovers"
    rfl (by rfl) (by rfl) (by rfl) (by rfl) (by rfl) (by rfl) (by rfl)
  exact h5.trans (by decide)

end EventSaga
